import Mathlib

/-!
Verification development for the SLS change detector
(`src/sls_change_detector.py`, class `SLSChangeDetectorDialog`).

The embedding below translates the change-detection core of the source
file into Lean definitions:

* geometries are abstracted to a record carrying the data the code reads
  through the external geometry engine (`isGeosValid`, `area`); the
  engine predicate `equals(g1, g2, 0.001)` is an external capability and
  is passed around as a Boolean-valued parameter `eqTol`;
* Python floats are modelled as rationals;
* the per-feature dictionaries built in `run_detection` (lines 281-298)
  become `Rec` values, and the feature indices become association lists
  with a last-write-wins builder mirroring Python dict insertion;
* Python set iteration order is unspecified, so the passes take the key
  enumerations (`ksBoth`, `ksNew`, `ksOld`) as explicit lists and the
  theorems quantify over any enumeration satisfying the corresponding
  membership conditions;
* fallible calls into the QGIS processing framework are modelled with
  `Except`, distinguishing the calls wrapped in `try`/`except` in the
  source from the ones that are not.
-/

set_option autoImplicit false

namespace SLS

/-- Abstraction of a `QgsGeometry` as seen by the code: the code only
reads validity (`isGeosValid`), area (`area()`), and hands the pair of
geometries to the engine equality predicate.  `shape` is an opaque
identity standing for the coordinate data, so that distinct geometries
with equal derived attributes stay distinguishable. -/
structure Geom where
  shape : Nat
  valid : Bool
  area : ℚ
deriving DecidableEq

/-- One entry of the `old_features` / `new_features` dictionaries built
in `run_detection` (lines 281-298): geometry, `luas` attribute (0.0 when
the field value is NULL) and `kdsubsls` attribute (`none` when NULL or
when the field is absent from the schema). -/
structure FRec where
  geom : Geom
  luas : ℚ
  kdsubsls : Option String
deriving DecidableEq

/-- One change record as appended to `changes_by_id` / `spatial_changes`.
The `idsubsls` field is `Option String` because the spatial pass can
produce a record whose key is the NULL value of the joined field; by-id
records always carry `some` key.  The `area` field models the extra
`"area"` dictionary key present only in spatial records. -/
structure ChangeRecord where
  idsubsls : Option String
  status : String
  batas_berubah : Bool
  luas_lama : ℚ
  luas_baru : ℚ
  selisih_luas : ℚ
  kdsubsls_lama : Option String
  kdsubsls_baru : Option String
  kdsubsls_changed : Bool
  type : String
  geom : Option Geom
  area : Option ℚ
deriving DecidableEq

/-- Python `abs()` on rationals (kept as an explicit conditional so
that it evaluates by kernel reduction). -/
def ratAbs (x : ℚ) : ℚ := if x < 0 then -x else x

/-- Dictionary lookup on an association list (Python `dict[key]` /
key-membership on the dictionaries built in `run_detection`). -/
def lookupIdx (m : List (String × FRec)) (k : String) : Option FRec :=
  (m.find? (fun p => p.1 == k)).map (fun p => p.2)

/-- `detect_geometry_changes` (lines 168-197).  If either geometry fails
`isGeosValid`, the function returns `(False, 0.0)`.  Otherwise it asks
the engine for equality within tolerance 0.001 (the parameter `eqTol`),
computes the absolute difference of the geometric areas, and reports a
change when the geometries compare unequal or the geometric area
difference exceeds the threshold `threshold_luas = 1.0`. -/
def detect_geometry_changes (eqTol : Geom → Geom → Bool) (o n : FRec) :
    Bool × ℚ :=
  if !o.geom.valid || !n.geom.valid then (false, 0)
  else
    ((!eqTol o.geom n.geom)
        || decide ((1 : ℚ) < ratAbs (o.geom.area - n.geom.area)),
      ratAbs (o.geom.area - n.geom.area))

/-- Body of the loop over `set(old_features) & set(new_features)`
(lines 309-341): emit a `DIUBAH` record when the geometry pass flags a
change, or the `kdsubsls` values differ (null-aware raw inequality), or
the absolute difference of the `luas` attributes exceeds 0.001. -/
def classifyPair (eqTol : Geom → Geom → Bool) (k : String) (o n : FRec) :
    Option ChangeRecord :=
  if (detect_geometry_changes eqTol o n).1
      || (o.kdsubsls != n.kdsubsls)
      || decide ((1 : ℚ)/1000 < ratAbs (o.luas - n.luas)) then
    some {
      idsubsls := some k
      status := "DIUBAH"
      batas_berubah := (detect_geometry_changes eqTol o n).1
      luas_lama := o.luas
      luas_baru := n.luas
      selisih_luas := o.luas - n.luas
      kdsubsls_lama := o.kdsubsls
      kdsubsls_baru := n.kdsubsls
      kdsubsls_changed := o.kdsubsls != n.kdsubsls
      type := "by_id"
      geom := some n.geom
      area := none }
  else none

/-- The loop over the keys present in both dictionaries, for a given
enumeration `ks` of `set(old_features) & set(new_features)`. -/
def changesBoth (eqTol : Geom → Geom → Bool)
    (old new : List (String × FRec)) (ks : List String) :
    List ChangeRecord :=
  ks.filterMap (fun k =>
    (lookupIdx old k).bind (fun o =>
      (lookupIdx new k).bind (fun n =>
        classifyPair eqTol k o n)))

/-- Record appended for a key present only in the new dictionary
(lines 345-360). -/
def addedRecord (k : String) (n : FRec) : ChangeRecord :=
  { idsubsls := some k
    status := "DITAMBAHKAN"
    batas_berubah := false
    luas_lama := 0
    luas_baru := n.luas
    selisih_luas := -n.luas
    kdsubsls_lama := none
    kdsubsls_baru := n.kdsubsls
    kdsubsls_changed := false
    type := "by_id"
    geom := some n.geom
    area := none }

/-- Record appended for a key present only in the old dictionary
(lines 363-378); note the `geom := none`. -/
def removedRecord (k : String) (o : FRec) : ChangeRecord :=
  { idsubsls := some k
    status := "DIHAPUS"
    batas_berubah := false
    luas_lama := o.luas
    luas_baru := 0
    selisih_luas := o.luas
    kdsubsls_lama := o.kdsubsls
    kdsubsls_baru := none
    kdsubsls_changed := false
    type := "by_id"
    geom := none
    area := none }

/-- The full identity-based pass (`self.changes_by_id` after lines
309-378): records for the shared keys, then for the keys only in the
new dictionary, then for the keys only in the old dictionary, where
`ksBoth`, `ksNew`, `ksOld` enumerate the corresponding Python sets. -/
def changes_by_id (eqTol : Geom → Geom → Bool)
    (old new : List (String × FRec))
    (ksBoth ksNew ksOld : List String) : List ChangeRecord :=
  changesBoth eqTol old new ksBoth
    ++ ksNew.filterMap (fun k => (lookupIdx new k).map (addedRecord k))
    ++ ksOld.filterMap (fun k => (lookupIdx old k).map (removedRecord k))

/-- The merge step of `run_detection` (lines 390-392):
`combined_report = changes_by_id.copy()` followed by appending each
spatial change in order. -/
def combined_report (byId spatial : List ChangeRecord) :
    List ChangeRecord :=
  spatial.foldl (fun acc sc => acc ++ [sc]) byId

/-- One raw feature of the new (or old) layer as read by `run_detection`:
the fields the code accesses are `idsubsls`, `luas`, `kdsubsls` and
`gid`, plus the geometry.  `luas` is `Option` because the field value
may be NULL (line 285/295); `kdsubsls` is `Option` because the value may
be NULL. -/
structure Feat where
  idsubsls : String
  luas : Option ℚ
  kdsubsls : Option String
  gid : Int
  geom : Geom
deriving DecidableEq

/-- The null-or-blank test of the duplicate validator (line 261):
`f["kdsubsls"] is None or str(f["kdsubsls"]).strip() == ""`. -/
def isNullOrBlank : Option String → Bool
  | none => true
  | some s => s.trim == ""

/-- First-occurrence order of the distinct `gid` values: Python dict
insertion order for the `gid_groups` dictionary (lines 250-257). -/
def firstOccurrences (l : List Int) : List Int :=
  l.foldl (fun acc g => if acc.contains g then acc else acc ++ [g]) []

/-- The member list of one `gid` group (the features appended under that
key at line 257, in feature-iteration order). -/
def gidGroup (feats : List Feat) (g : Int) : List Feat :=
  feats.filter (fun f => f.gid == g)

/-- The duplicate validator (lines 247-273): when both the `gid` and
`kdsubsls` fields exist in the new layer's schema, group the features by
`gid`; for every group with more than one member in which some member
has a null or blank `kdsubsls`, append every member's `idsubsls`.
When either field is absent, the validator is skipped and the list stays
empty. -/
def duplicate_ids_new (hasGid hasKd : Bool) (feats : List Feat) :
    List String :=
  if hasGid && hasKd then
    (firstOccurrences (feats.map (fun f => f.gid))).flatMap (fun g =>
      if (gidGroup feats g).length > 1
          && (gidGroup feats g).any (fun f => isNullOrBlank f.kdsubsls) then
        (gidGroup feats g).map (fun f => f.idsubsls)
      else [])
  else []

/-- Conversion of a raw feature to an index entry (lines 283-287 /
293-297): `luas` defaults to 0.0 on NULL, `kdsubsls` is read only when
the field exists in the schema. -/
def toFRec (hasKd : Bool) (f : Feat) : FRec :=
  { geom := f.geom
    luas := f.luas.getD 0
    kdsubsls := if hasKd then f.kdsubsls else none }

/-- Python dict assignment `d[k] = r`: overwrite in place when the key
exists, otherwise append (insertion order preserved). -/
def insertLWW (m : List (String × FRec)) (k : String) (r : FRec) :
    List (String × FRec) :=
  if m.any (fun p => p.1 == k) then
    m.map (fun p => if p.1 == k then (k, r) else p)
  else m ++ [(k, r)]

/-- Building `old_features` / `new_features` from the layer's features
(lines 281-298): last write wins on duplicate `idsubsls`. -/
def buildIndex (hasKd : Bool) (feats : List Feat) :
    List (String × FRec) :=
  feats.foldl (fun m f => insertLWW m f.idsubsls (toFRec hasKd f)) []

/-- One feature of the joined difference layer consumed by the loop at
lines 483-501.  `idVal` is the value of its `idsubsls` field (`none`
standing for NULL), meaningful when the layer's schema has that field;
`matched` is a ghost flag recording whether the spatial join found a
matching new-layer feature (the code never reads it; the join is run
with `DISCARD_NONMATCHING: False`, whose output keeps unmatched
features and leaves their joined fields NULL). -/
structure JoinedFeat where
  fid : Nat
  geom : Option Geom
  idVal : Option String
  matched : Bool
deriving DecidableEq

/-- The joined difference layer: whether its schema has an `idsubsls`
field, and its features. -/
structure JoinedLayer where
  hasIdField : Bool
  feats : List JoinedFeat
deriving DecidableEq

/-- What the join step actually guarantees about its output (QGIS
`joinattributesbylocation` with `JOIN_FIELDS = ["idsubsls"]` and
`DISCARD_NONMATCHING: False`): the field is present in the schema, and
an unmatched feature carries NULL in it. -/
def joinOutputWf (L : JoinedLayer) : Prop :=
  L.hasIdField = true ∧ ∀ f ∈ L.feats, f.matched = false → f.idVal = none

/-- One record of `self.spatial_changes` (lines 487-501).  The key is
`feat["idsubsls"]` when the layer's schema has the field
(`feat.fieldNameIndex("idsubsls") >= 0`), otherwise the placeholder
`"SPASIAL_" + str(feat.id())`. -/
def spatialRecordOf (hasIdField : Bool) (f : JoinedFeat) (g : Geom) :
    ChangeRecord :=
  { idsubsls :=
      if hasIdField then f.idVal else some ("SPASIAL_" ++ toString f.fid)
    status := "PERUBAHAN_SPASIAL"
    batas_berubah := true
    luas_lama := 0
    luas_baru := g.area
    selisih_luas := g.area
    kdsubsls_lama := none
    kdsubsls_baru := none
    kdsubsls_changed := false
    type := "spatial"
    geom := some g
    area := some g.area }

/-- The loop over the joined layer (lines 483-501): one record per
feature whose geometry is present. -/
def spatialChangesOf (L : JoinedLayer) : List ChangeRecord :=
  L.feats.filterMap (fun f => (f.geom).map (spatialRecordOf L.hasIdField f))

/-- Outcomes of the external processing calls made during the spatial
stage of one run, as data: `importOk` is whether `from qgis import
processing` succeeds; the `Except` fields are the outcomes of the five
`processing.run` calls (reprojection, symmetrical difference, the two
auxiliary differences, and the spatial join). -/
structure SpatialEngine where
  importOk : Bool
  reprojectResult : Except Unit Unit
  symDiffResult : Except Unit JoinedLayer
  diffNewResult : Except Unit Unit
  diffOldResult : Except Unit Unit
  joinResult : Except Unit JoinedLayer

/-- `enhanced_spatial_analysis` (lines 508-567): the whole body is
wrapped in `try`/`except`, so the `symmetrical` entry of the result is
available only when the symmetrical difference and both auxiliary
difference calls succeed; any raise yields `{}` (here `none`). -/
def enhanced_spatial_analysis (e : SpatialEngine) : Option JoinedLayer :=
  match e.symDiffResult, e.diffNewResult, e.diffOldResult with
  | .ok d, .ok _, .ok _ => some d
  | _, _, _ => none

/-- `run_spatial_analysis` (lines 438-506) as a transformer of the
`self.spatial_changes` state.  A failed `processing` import returns
early, leaving the prior state untouched.  The reprojection call (line
453) and the join call (line 470) are NOT inside any `try`, so their
exceptions propagate (`Except.error`).  When `enhanced_spatial_analysis`
yields no `symmetrical` layer, the list is set to `[]`. -/
def run_spatial_analysis (e : SpatialEngine) (crsDiffer : Bool)
    (prior : List ChangeRecord) : Except Unit (List ChangeRecord) :=
  if e.importOk = false then .ok prior
  else
    match (if crsDiffer then e.reprojectResult else .ok ()) with
    | .error u => .error u
    | .ok _ =>
      match enhanced_spatial_analysis e with
      | some _diffLayer =>
        match e.joinResult with
        | .error u => .error u
        | .ok joined => .ok (spatialChangesOf joined)
      | none => .ok []

/-- The tail of `run_detection` (lines 383-392): run the spatial stage,
then build `self.combined_report`; an exception escaping
`run_spatial_analysis` aborts `run_detection` before the report is
built. -/
def run_detection_tail (byId : List ChangeRecord) (e : SpatialEngine)
    (crsDiffer : Bool) (prior : List ChangeRecord) :
    Except Unit (List ChangeRecord × List ChangeRecord) :=
  match run_spatial_analysis e crsDiffer prior with
  | .error u => .error u
  | .ok sc => .ok (sc, combined_report byId sc)

/-- One CSV row of `export_combined_to_csv` (lines 587-628).  The
numeric cells are kept as rational values (`none` = the empty cell the
code writes for the other origin); the code renders them with a fixed
number of decimals, which is presentation only. -/
structure CsvRow where
  idsubsls : Option String
  status : String
  tipe_perubahan : String
  perubahan_batas : String
  luas_lama : Option ℚ
  luas_baru : Option ℚ
  selisih_luas : Option ℚ
  luas_spasial : Option ℚ
  kdsubsls_lama : String
  kdsubsls_baru : String
  perubahan_kdsubsls : String
  duplikat_file_baru : String
  catatan : String
deriving DecidableEq

/-- Python membership `item["idsubsls"] in self.duplicate_ids_new`; a
NULL key is never a member of a list of strings. -/
def isDuplicate (dups : List String) : Option String → Bool
  | some s => dups.contains s
  | none => false

/-- The `Catatan` cell (lines 599-611). -/
def catatanOf (item : ChangeRecord) : String :=
  if item.type == "spatial" then
    "Perubahan batas spasial (symmetrical difference)"
  else if item.status == "DIUBAH" then
    String.intercalate "; "
      ((if item.batas_berubah then ["Batas berubah (luas)"] else [])
        ++ (if item.kdsubsls_changed then ["kdsubsls berubah"] else []))
  else item.status

/-- One row written by `export_combined_to_csv` (lines 596-628). -/
def exportRow (dups : List String) (item : ChangeRecord) : CsvRow :=
  { idsubsls := item.idsubsls
    status := item.status
    tipe_perubahan := item.type
    perubahan_batas := if item.batas_berubah then "Ya" else "Tidak"
    luas_lama := if item.type == "spatial" then none else some item.luas_lama
    luas_baru := if item.type == "spatial" then none else some item.luas_baru
    selisih_luas :=
      if item.type == "spatial" then none else some item.selisih_luas
    luas_spasial :=
      if item.type == "spatial" then some (item.area.getD 0) else none
    kdsubsls_lama := item.kdsubsls_lama.getD "NULL"
    kdsubsls_baru := item.kdsubsls_baru.getD "NULL"
    perubahan_kdsubsls := if item.kdsubsls_changed then "Ya" else "Tidak"
    duplikat_file_baru :=
      if isDuplicate dups item.idsubsls then "Ya" else "Tidak"
    catatan := catatanOf item }

/-- A CSV row with its duplicate-annotation cell blanked, for comparing
rows up to that annotation. -/
def rowSansDup (r : CsvRow) : CsvRow := { r with duplikat_file_baru := "" }

/-- The features written by `export_to_geopackage` (lines 678-700): only
the change records carrying a geometry. -/
def gpkgFeatures (report : List ChangeRecord) : List ChangeRecord :=
  report.filter (fun c => c.geom.isSome)

/-- The results of one detection run that are visible to the export
layer: the duplicate flag list, the identity-based change list, and the
merged report. -/
structure RunOutput where
  dups : List String
  byId : List ChangeRecord
  report : List ChangeRecord
deriving DecidableEq

/-- One full run of the pure core of `run_detection` for a given
spatial-change list: the validator on the raw new features, then the
identity-based pass on the indices built from the raw features, then
the merge. -/
def fullRun (eqTol : Geom → Geom → Bool) (hasGid hasKdNew hasKdOld : Bool)
    (oldFeats newFeats : List Feat) (ksBoth ksNew ksOld : List String)
    (spatial : List ChangeRecord) : RunOutput :=
  { dups := duplicate_ids_new hasGid hasKdNew newFeats
    byId := changes_by_id eqTol (buildIndex hasKdOld oldFeats)
      (buildIndex hasKdNew newFeats) ksBoth ksNew ksOld
    report := combined_report
      (changes_by_id eqTol (buildIndex hasKdOld oldFeats)
        (buildIndex hasKdNew newFeats) ksBoth ksNew ksOld) spatial }

/-- Agreement of two raw features on every field the classifier and the
indices read, leaving only `gid` (which feeds nothing but the duplicate
validator) free. -/
def AgreeExceptGid (f1 f2 : Feat) : Prop :=
  f1.idsubsls = f2.idsubsls ∧ f1.luas = f2.luas ∧
    f1.kdsubsls = f2.kdsubsls ∧ f1.geom = f2.geom

/-! Concrete instances used to evaluate the development on explicit
inputs.  The engine-equality parameters below are possible behaviours of
the external `equals(g1, g2, 0.001)` capability; note that equality
within a linear tolerance of 0.001 places no bound on the difference of
the two areas (a boundary displaced by less than the tolerance along a
long perimeter changes the area by more than 1), so an engine answering
`true` on two geometries whose areas differ by more than the 1.0
threshold is a legitimate behaviour. -/

/-- Engine for which the two C1 geometries compare equal within
tolerance. -/
def c1eqTol : Geom → Geom → Bool := fun _ _ => true

def c1geomOld : Geom := ⟨0, true, 0⟩

def c1geomNew : Geom := ⟨1, true, 2⟩

def c1oldRec : FRec := ⟨c1geomOld, 10, some "X"⟩

def c1newRec : FRec := ⟨c1geomNew, 10, some "X"⟩

def c1old : List (String × FRec) := [("A", c1oldRec)]

def c1new : List (String × FRec) := [("A", c1newRec)]

def c1weqTol : Geom → Geom → Bool := fun a b => a == b

def c1wOldRec : FRec := ⟨⟨0, true, 1⟩, 10, some "X"⟩

def c1wNewRec : FRec := ⟨⟨0, true, 1⟩, 10, some "Y"⟩

def c1wOld : List (String × FRec) := [("A", c1wOldRec)]

def c1wNew : List (String × FRec) := [("A", c1wNewRec)]

def c2eqTol : Geom → Geom → Bool := fun a b => a == b

def c2recB : FRec := ⟨⟨0, true, 7⟩, 7, some "B1"⟩

def c2recC : FRec := ⟨⟨1, true, 3⟩, 3, some "C1"⟩

def c2old : List (String × FRec) := [("B", c2recB)]

def c2new : List (String × FRec) := [("C", c2recC)]

/-- Reflexive engine: identical coordinate data compares equal. -/
def c3eqTol : Geom → Geom → Bool := fun a b => a == b

def c3geom : Geom := ⟨0, true, 100⟩

def c3oldRec : FRec := ⟨c3geom, 100, some "X"⟩

def c3newRec : FRec := ⟨c3geom, 105, some "X"⟩

def c3old : List (String × FRec) := [("A", c3oldRec)]

def c3new : List (String × FRec) := [("A", c3newRec)]

/-- The record the code emits in scenario C3. -/
def c3record : ChangeRecord :=
  ⟨some "A", "DIUBAH", false, 100, 105, -5, some "X", some "X", false,
    "by_id", some c3geom, none⟩

/-- Engine that reports the two C4 geometries as NOT equal. -/
def c4eqTol : Geom → Geom → Bool := fun _ _ => false

/-- An old feature whose geometry fails the validity check. -/
def c4o : FRec := ⟨⟨0, false, 100⟩, 100, some "X"⟩

def c4n : FRec := ⟨⟨1, true, 500⟩, 500, some "Y"⟩

/-- A joined feature without a join match, in a layer whose schema has
the `idsubsls` field (the situation `DISCARD_NONMATCHING: False`
produces): its field value is NULL. -/
def c5feat : JoinedFeat := ⟨0, some ⟨5, true, 4⟩, none, false⟩

def c5layer : JoinedLayer := ⟨true, [c5feat]⟩

def c5record : ChangeRecord := spatialRecordOf true c5feat ⟨5, true, 4⟩

def c6layer : JoinedLayer := ⟨true, []⟩

/-- Engine trace in which the spatial join raises. -/
def c6joinFail : SpatialEngine :=
  ⟨true, .ok (), .ok c6layer, .ok (), .ok (), .error ()⟩

/-- Engine trace in which the symmetrical difference raises. -/
def c6symFail : SpatialEngine :=
  ⟨true, .ok (), .error (), .ok (), .ok (), .ok c6layer⟩

/-- A nonempty identity-based change list for exercising the merge. -/
def c6byId : List ChangeRecord :=
  [⟨some "Z", "DIUBAH", true, 1, 2, -1, none, none, false, "by_id",
    none, none⟩]

def c8feat1 : Feat := ⟨"K1", some 10, none, 7, ⟨0, true, 10⟩⟩

def c8feat2 : Feat := ⟨"K2", some 20, some "02", 7, ⟨1, true, 20⟩⟩

def c8feats : List Feat := [c8feat1, c8feat2]

def c9eqTol : Geom → Geom → Bool := fun a b => a == b

def c9oldFeat : Feat := ⟨"O1", some 5, some "09", 1, ⟨2, true, 5⟩⟩

def c9newFeat1 : Feat := ⟨"N1", some 10, some "01", 3, ⟨0, true, 10⟩⟩

/-- The same feature with only its `gid` changed. -/
def c9newFeat2 : Feat := ⟨"N1", some 10, some "01", 4, ⟨0, true, 10⟩⟩

def c9item : ChangeRecord := addedRecord "N1" (toFRec true c9newFeat1)

def c10eqTol : Geom → Geom → Bool := fun a b => a == b

def c10oldRec : FRec := ⟨⟨0, true, 8⟩, 8, some "X"⟩

def c10newRec : FRec := ⟨⟨1, true, 9⟩, 9, some "Y"⟩

def c10old : List (String × FRec) := [("D", c10oldRec)]

def c10new : List (String × FRec) := [("E", c10newRec)]

def c10removed : ChangeRecord := removedRecord "D" c10oldRec

/-- Appending elements one by one onto a copy is list concatenation. -/
theorem combined_report_eq_append (a b : List ChangeRecord) :
    combined_report a b = a ++ b := by
  unfold combined_report
  induction b generalizing a with
  | nil => simp
  | cons x xs ih =>
    simp only [List.foldl_cons]
    rw [ih]
    simp

/-- C7: the merged report is exactly the concatenation of the
identity-based list and the spatial list: its length is the sum of the
two lengths, its first `byId.length` entries are `byId` in order, the
remaining entries are `spatial` in order, and nothing is dropped or
interleaved. -/
theorem C7_merge_law (byId spatial : List ChangeRecord) :
    combined_report byId spatial = byId ++ spatial ∧
    (combined_report byId spatial).length = byId.length + spatial.length ∧
    (combined_report byId spatial).take byId.length = byId ∧
    (combined_report byId spatial).drop byId.length = spatial := by
  have h := combined_report_eq_append byId spatial
  refine ⟨h, ?_, ?_, ?_⟩ <;> rw [h] <;> simp

/-- The geometry pass reports no change when the engine says the
geometries are equal within tolerance and the geometric areas differ by
at most the 1.0 threshold. -/
theorem detect_fst_false {eqTol : Geom → Geom → Bool} {o n : FRec}
    (hEq : eqTol o.geom n.geom = true)
    (hArea : ratAbs (o.geom.area - n.geom.area) ≤ 1) :
    (detect_geometry_changes eqTol o n).1 = false := by
  unfold detect_geometry_changes
  split
  · rfl
  · simp [hEq, decide_eq_false (not_lt.mpr hArea)]

/-- Characterisation of `classifyPair`: when the DIUBAH condition holds
the emitted record is fully determined, and otherwise nothing is
emitted. -/
theorem classifyPair_spec (eqTol : Geom → Geom → Bool) (k : String)
    (o n : FRec) :
    (((detect_geometry_changes eqTol o n).1 = true ∨
        o.kdsubsls ≠ n.kdsubsls ∨ (1 : ℚ)/1000 < ratAbs (o.luas - n.luas)) →
      classifyPair eqTol k o n = some {
        idsubsls := some k
        status := "DIUBAH"
        batas_berubah := (detect_geometry_changes eqTol o n).1
        luas_lama := o.luas
        luas_baru := n.luas
        selisih_luas := o.luas - n.luas
        kdsubsls_lama := o.kdsubsls
        kdsubsls_baru := n.kdsubsls
        kdsubsls_changed := o.kdsubsls != n.kdsubsls
        type := "by_id"
        geom := some n.geom
        area := none })
    ∧ (¬((detect_geometry_changes eqTol o n).1 = true ∨
          o.kdsubsls ≠ n.kdsubsls ∨ (1 : ℚ)/1000 < ratAbs (o.luas - n.luas)) →
        classifyPair eqTol k o n = none) := by
  constructor
  · intro h
    have hc : ((detect_geometry_changes eqTol o n).1
        || (o.kdsubsls != n.kdsubsls)
        || decide ((1 : ℚ)/1000 < ratAbs (o.luas - n.luas))) = true := by
      simpa [Bool.or_eq_true, bne_iff_ne, decide_eq_true_iff,
        or_assoc] using h
    unfold classifyPair
    rw [if_pos hc]
  · intro h
    simp only [not_or, not_lt] at h
    obtain ⟨h1, h2, h3⟩ := h
    have h1' : (detect_geometry_changes eqTol o n).1 = false := by
      cases hb : (detect_geometry_changes eqTol o n).1
      · rfl
      · exact absurd hb h1
    have h2' : o.kdsubsls = n.kdsubsls := not_not.mp h2
    unfold classifyPair
    rw [if_neg]
    simp [h1', h2', decide_eq_false (not_lt.mpr h3)]
    rwa [one_div] at h3

/-- Every record `classifyPair` emits carries the pair's key, the DIUBAH
status, and the flags computed from the pair. -/
theorem classifyPair_fields {eqTol : Geom → Geom → Bool} {k : String}
    {o n : FRec} {c : ChangeRecord}
    (h : classifyPair eqTol k o n = some c) :
    c.idsubsls = some k ∧ c.status = "DIUBAH" ∧
    c.batas_berubah = (detect_geometry_changes eqTol o n).1 ∧
    c.kdsubsls_changed = (o.kdsubsls != n.kdsubsls) ∧
    c.luas_lama = o.luas ∧ c.luas_baru = n.luas ∧
    c.selisih_luas = o.luas - n.luas := by
  unfold classifyPair at h
  split at h
  · rw [Option.some.injEq] at h
    subst h
    exact ⟨rfl, rfl, rfl, rfl, rfl, rfl, rfl⟩
  · cases h

/-- Membership in the shared-key loop's output. -/
theorem mem_changesBoth {eqTol : Geom → Geom → Bool}
    {old new : List (String × FRec)} {ks : List String}
    {c : ChangeRecord} :
    c ∈ changesBoth eqTol old new ks ↔
      ∃ k o n, k ∈ ks ∧ lookupIdx old k = some o ∧
        lookupIdx new k = some n ∧ classifyPair eqTol k o n = some c := by
  unfold changesBoth
  rw [List.mem_filterMap]
  constructor
  · rintro ⟨k, hk, hbind⟩
    rcases Option.bind_eq_some.mp hbind with ⟨o, ho, hbind2⟩
    rcases Option.bind_eq_some.mp hbind2 with ⟨n, hn, hcl⟩
    exact ⟨k, o, n, hk, ho, hn, hcl⟩
  · rintro ⟨k, o, n, hk, ho, hn, hcl⟩
    exact ⟨k, hk, by simp [ho, hn, hcl]⟩

/-- Membership in the added/removed halves of the pass. -/
theorem mem_filterMap_mk {mk : String → FRec → ChangeRecord}
    {look : String → Option FRec} {ks : List String} {c : ChangeRecord} :
    c ∈ ks.filterMap (fun k => (look k).map (mk k)) ↔
      ∃ k r, k ∈ ks ∧ look k = some r ∧ c = mk k r := by
  rw [List.mem_filterMap]
  constructor
  · rintro ⟨k, hk, hmap⟩
    rcases Option.map_eq_some'.mp hmap with ⟨r, hr, hc⟩
    exact ⟨k, r, hk, hr, hc.symm⟩
  · rintro ⟨k, r, hk, hr, hc⟩
    exact ⟨k, hk, by simp [hr, hc.symm]⟩

/-- A key not in the enumeration contributes no record to an
added/removed half. -/
theorem countP_mk_zero_of_notMem {mk : String → FRec → ChangeRecord}
    (hmk : ∀ j r, (mk j r).idsubsls = some j)
    {look : String → Option FRec} {ks : List String} {k : String}
    (hk : k ∉ ks) :
    (ks.filterMap (fun j => (look j).map (mk j))).countP
      (fun c => c.idsubsls == some k) = 0 := by
  rw [List.countP_eq_zero]
  intro c hc
  rcases mem_filterMap_mk.mp hc with ⟨j, r, hj, _, rfl⟩
  simp only [hmk, beq_iff_eq, Option.some.injEq]
  intro hjk
  exact hk (hjk ▸ hj)

/-- A key its dictionary does not contain contributes no record to an
added/removed half. -/
theorem countP_mk_zero_of_none {mk : String → FRec → ChangeRecord}
    (hmk : ∀ j r, (mk j r).idsubsls = some j)
    {look : String → Option FRec} {k : String} (hlook : look k = none)
    (ks : List String) :
    (ks.filterMap (fun j => (look j).map (mk j))).countP
      (fun c => c.idsubsls == some k) = 0 := by
  rw [List.countP_eq_zero]
  intro c hc
  rcases mem_filterMap_mk.mp hc with ⟨j, r, hj, hr, rfl⟩
  simp only [hmk, beq_iff_eq, Option.some.injEq]
  intro hjk
  subst hjk
  rw [hlook] at hr
  cases hr

/-- A key occurring once in the enumeration and present in its
dictionary contributes exactly one record to an added/removed half. -/
theorem countP_mk_one {mk : String → FRec → ChangeRecord}
    (hmk : ∀ j r, (mk j r).idsubsls = some j)
    {look : String → Option FRec} {k : String} {n : FRec}
    (hlook : look k = some n) :
    ∀ ks : List String, ks.Nodup → k ∈ ks →
      (ks.filterMap (fun j => (look j).map (mk j))).countP
        (fun c => c.idsubsls == some k) = 1 := by
  intro ks
  induction ks with
  | nil => intro _ h; cases h
  | cons a ks ih =>
    intro hnd hmem
    rcases List.nodup_cons.mp hnd with ⟨ha, hnd'⟩
    rw [List.filterMap_cons]
    by_cases hak : a = k
    · subst hak
      rw [hlook]
      simp only [Option.map_some']
      rw [List.countP_cons]
      rw [countP_mk_zero_of_notMem hmk ha]
      simp [hmk]
    · have hkks : k ∈ ks := by
        rcases List.mem_cons.mp hmem with h | h
        · exact absurd h.symm hak
        · exact h
      cases hla : look a with
      | none => exact ih hnd' hkks
      | some r =>
        simp only [Option.map_some']
        rw [List.countP_cons, ih hnd' hkks]
        simp [hmk, hak]

/-- A key absent from either dictionary contributes no record to the
shared-key loop. -/
theorem countP_changesBoth_zero {eqTol : Geom → Geom → Bool}
    {old new : List (String × FRec)} {ks : List String} {k : String}
    (h : lookupIdx old k = none ∨ lookupIdx new k = none) :
    (changesBoth eqTol old new ks).countP
      (fun c => c.idsubsls == some k) = 0 := by
  rw [List.countP_eq_zero]
  intro c hc
  rcases mem_changesBoth.mp hc with ⟨j, o, n, _, ho, hn, hcl⟩
  have hid := (classifyPair_fields hcl).1
  simp only [hid, beq_iff_eq, Option.some.injEq]
  intro hjk
  subst hjk
  rcases h with h | h
  · rw [h] at ho; cases ho
  · rw [h] at hn; cases hn

/-- C1 (amended): for a key present in both indices, a DIUBAH record is
emitted iff the geometry-based boundary-changed predicate is true, or
the `kdsubsls` values differ under null-aware raw equality, or the
absolute difference of the `luas` attributes exceeds 0.001; in
particular, for a key whose geometry is equal within tolerance AND whose
geometric areas differ by at most the 1.0 threshold, whose `luas`
attributes differ by at most 0.001, and whose `kdsubsls` values are
equal, no change record is emitted for that key. -/
theorem C1_diubah_iff_amended (eqTol : Geom → Geom → Bool)
    (old new : List (String × FRec)) (ks : List String) (k : String)
    (o n : FRec) (hk : k ∈ ks) (ho : lookupIdx old k = some o)
    (hn : lookupIdx new k = some n) :
    ((∃ c ∈ changesBoth eqTol old new ks,
        c.idsubsls = some k ∧ c.status = "DIUBAH") ↔
      ((detect_geometry_changes eqTol o n).1 = true ∨
        o.kdsubsls ≠ n.kdsubsls ∨ (1 : ℚ)/1000 < ratAbs (o.luas - n.luas)))
    ∧ (eqTol o.geom n.geom = true → ratAbs (o.geom.area - n.geom.area) ≤ 1 →
        o.kdsubsls = n.kdsubsls → ratAbs (o.luas - n.luas) ≤ 1/1000 →
        ∀ c ∈ changesBoth eqTol old new ks, c.idsubsls ≠ some k) := by
  constructor
  · constructor
    · rintro ⟨c, hc, hid, _⟩
      rcases mem_changesBoth.mp hc with ⟨j, o', n', _, ho', hn', hcl⟩
      have hj : j = k := by
        have := (classifyPair_fields hcl).1
        rw [this] at hid
        exact (Option.some.injEq _ _ ▸ hid)
      subst hj
      rw [ho] at ho'
      rw [hn] at hn'
      cases ho'
      cases hn'
      by_contra hnot
      rw [(classifyPair_spec eqTol j o n).2 hnot] at hcl
      cases hcl
    · intro hcond
      have hcl := (classifyPair_spec eqTol k o n).1 hcond
      exact ⟨_, mem_changesBoth.mpr ⟨k, o, n, hk, ho, hn, hcl⟩, rfl, rfl⟩
  · intro hEq hGArea hKd hLuas c hc hid
    rcases mem_changesBoth.mp hc with ⟨j, o', n', _, ho', hn', hcl⟩
    have hj : j = k := by
      have := (classifyPair_fields hcl).1
      rw [this] at hid
      exact (Option.some.injEq _ _ ▸ hid)
    subst hj
    rw [ho] at ho'
    rw [hn] at hn'
    cases ho'
    cases hn'
    have hnone : classifyPair eqTol j o n = none := by
      refine (classifyPair_spec eqTol j o n).2 ?_
      push_neg
      refine ⟨?_, hKd, not_lt.mp ?_⟩
      · rw [detect_fst_false hEq hGArea]
        simp
      · exact not_lt.mpr hLuas
    rw [hnone] at hcl
    cases hcl

/-- C1 witness: the amended theorem applied to a concrete pair of
indices whose shared key satisfies the DIUBAH condition. -/
theorem C1_diubah_iff_amended_witness :
    ∃ c ∈ changesBoth c1weqTol c1wOld c1wNew ["A"],
      c.idsubsls = some "A" ∧ c.status = "DIUBAH" := by
  have h := C1_diubah_iff_amended c1weqTol c1wOld c1wNew ["A"] "A"
    c1wOldRec c1wNewRec (by decide) rfl rfl
  exact h.1.mpr (Or.inr (Or.inl (by decide)))

/-- C1 counterexample to the claim as stated: a shared key whose
geometries are reported equal within tolerance by the engine, whose
`luas` attributes are equal, and whose `kdsubsls` values are equal,
for which a DIUBAH record IS emitted — because the geometric areas
differ by more than the 1.0 threshold, which the code's
boundary-changed predicate also tests. -/
theorem C1_cex :
    lookupIdx c1old "A" = some c1oldRec ∧
    lookupIdx c1new "A" = some c1newRec ∧
    c1eqTol c1oldRec.geom c1newRec.geom = true ∧
    c1oldRec.luas = c1newRec.luas ∧
    c1oldRec.kdsubsls = c1newRec.kdsubsls ∧
    ∃ c ∈ changesBoth c1eqTol c1old c1new ["A"],
      c.idsubsls = some "A" ∧ c.status = "DIUBAH" := by
  refine ⟨rfl, rfl, rfl, rfl, rfl, ?_⟩
  have hdet : (detect_geometry_changes c1eqTol c1oldRec c1newRec).1 = true := by
    unfold detect_geometry_changes c1eqTol c1oldRec c1newRec c1geomOld c1geomNew
    norm_num [ratAbs]
  have hcl := (classifyPair_spec c1eqTol "A" c1oldRec c1newRec).1 (Or.inl hdet)
  exact ⟨_, mem_changesBoth.mpr ⟨"A", c1oldRec, c1newRec, by decide, rfl, rfl, hcl⟩,
    rfl, rfl⟩

/-- C2: a key present only in the new index yields exactly one record —
a DITAMBAHKAN record with `luas_lama = 0` and
`selisih_luas = -luas_baru`; a key present only in the old index yields
exactly one record — a DIHAPUS record with `luas_baru = 0` and
`selisih_luas = luas_lama`. -/
theorem C2_added_removed (eqTol : Geom → Geom → Bool)
    (old new : List (String × FRec)) (ksBoth ksNew ksOld : List String) :
    (∀ k n, ksNew.Nodup → k ∈ ksNew → lookupIdx old k = none →
      lookupIdx new k = some n →
      (changes_by_id eqTol old new ksBoth ksNew ksOld).countP
          (fun c => c.idsubsls == some k) = 1
      ∧ ∀ c ∈ changes_by_id eqTol old new ksBoth ksNew ksOld,
          c.idsubsls = some k →
          c.status = "DITAMBAHKAN" ∧ c.luas_lama = 0 ∧
          c.luas_baru = n.luas ∧ c.selisih_luas = -n.luas)
    ∧ (∀ k o, ksOld.Nodup → k ∈ ksOld → lookupIdx new k = none →
      lookupIdx old k = some o →
      (changes_by_id eqTol old new ksBoth ksNew ksOld).countP
          (fun c => c.idsubsls == some k) = 1
      ∧ ∀ c ∈ changes_by_id eqTol old new ksBoth ksNew ksOld,
          c.idsubsls = some k →
          c.status = "DIHAPUS" ∧ c.luas_baru = 0 ∧
          c.luas_lama = o.luas ∧ c.selisih_luas = o.luas) := by
  have hmkA : ∀ (j : String) (r : FRec), (addedRecord j r).idsubsls = some j :=
    fun _ _ => rfl
  have hmkR : ∀ (j : String) (r : FRec), (removedRecord j r).idsubsls = some j :=
    fun _ _ => rfl
  constructor
  · intro k n hnd hk hOldNone hNewSome
    constructor
    · unfold changes_by_id
      rw [List.countP_append, List.countP_append]
      rw [countP_changesBoth_zero (Or.inl hOldNone)]
      rw [countP_mk_one hmkA hNewSome ksNew hnd hk]
      rw [countP_mk_zero_of_none hmkR hOldNone ksOld]
    · intro c hc hid
      unfold changes_by_id at hc
      rcases List.mem_append.mp hc with hc | hc
      rcases List.mem_append.mp hc with hc | hc
      · rcases mem_changesBoth.mp hc with ⟨j, o', n', _, ho', _, hcl⟩
        have hj : j = k := by
          have := (classifyPair_fields hcl).1
          rw [this] at hid
          exact (Option.some.injEq _ _ ▸ hid)
        subst hj
        rw [hOldNone] at ho'
        cases ho'
      · rcases mem_filterMap_mk.mp hc with ⟨j, r, _, hr, rfl⟩
        have hj : j = k := by
          rw [hmkA] at hid
          exact (Option.some.injEq _ _ ▸ hid)
        subst hj
        rw [hNewSome] at hr
        rw [Option.some.injEq] at hr
        subst hr
        exact ⟨rfl, rfl, rfl, rfl⟩
      · rcases mem_filterMap_mk.mp hc with ⟨j, r, _, hr, rfl⟩
        have hj : j = k := by
          rw [hmkR] at hid
          exact (Option.some.injEq _ _ ▸ hid)
        subst hj
        rw [hOldNone] at hr
        cases hr
  · intro k o hnd hk hNewNone hOldSome
    constructor
    · unfold changes_by_id
      rw [List.countP_append, List.countP_append]
      rw [countP_changesBoth_zero (Or.inr hNewNone)]
      rw [countP_mk_zero_of_none hmkA hNewNone ksNew]
      rw [countP_mk_one hmkR hOldSome ksOld hnd hk]
    · intro c hc hid
      unfold changes_by_id at hc
      rcases List.mem_append.mp hc with hc | hc
      rcases List.mem_append.mp hc with hc | hc
      · rcases mem_changesBoth.mp hc with ⟨j, o', n', _, _, hn', hcl⟩
        have hj : j = k := by
          have := (classifyPair_fields hcl).1
          rw [this] at hid
          exact (Option.some.injEq _ _ ▸ hid)
        subst hj
        rw [hNewNone] at hn'
        cases hn'
      · rcases mem_filterMap_mk.mp hc with ⟨j, r, _, hr, rfl⟩
        have hj : j = k := by
          rw [hmkA] at hid
          exact (Option.some.injEq _ _ ▸ hid)
        subst hj
        rw [hNewNone] at hr
        cases hr
      · rcases mem_filterMap_mk.mp hc with ⟨j, r, _, hr, rfl⟩
        have hj : j = k := by
          rw [hmkR] at hid
          exact (Option.some.injEq _ _ ▸ hid)
        subst hj
        rw [hOldSome] at hr
        rw [Option.some.injEq] at hr
        subst hr
        exact ⟨rfl, rfl, rfl, rfl⟩

/-- C2 witness: the theorem applied to concrete indices with one
new-only key and one old-only key. -/
theorem C2_added_removed_witness :
    (changes_by_id c2eqTol c2old c2new [] ["C"] ["B"]).countP
        (fun c => c.idsubsls == some "C") = 1
    ∧ (changes_by_id c2eqTol c2old c2new [] ["C"] ["B"]).countP
        (fun c => c.idsubsls == some "B") = 1 := by
  have h := C2_added_removed c2eqTol c2old c2new [] ["C"] ["B"]
  exact ⟨(h.1 "C" c2recC (by decide) (by decide) (by decide) (by decide)).1,
    (h.2 "B" c2recB (by decide) (by decide) (by decide) (by decide)).1⟩

/-- C3 (amended): with key "A" having `luas` 100.0 and code "X" in the
old index, `luas` 105.0 and code "X" in the new index, and an unchanged
geometry, the pass emits a DIUBAH record — triggered by the attribute
area delta 5.0 exceeding 0.001 — with `batas_berubah = false` (the
boundary flag comes from the geometry comparison, which sees no change)
and `kdsubsls_changed = false`. -/
theorem C3_scenario2_amended (eqTol : Geom → Geom → Bool)
    (old new : List (String × FRec)) (ks : List String) (k : String)
    (o n : FRec) (hk : k ∈ ks) (ho : lookupIdx old k = some o)
    (hn : lookupIdx new k = some n) (hg : o.geom = n.geom)
    (heq : eqTol o.geom n.geom = true) (holuas : o.luas = 100)
    (hnluas : n.luas = 105) (hokd : o.kdsubsls = some "X")
    (hnkd : n.kdsubsls = some "X") :
    ∃ c ∈ changesBoth eqTol old new ks,
      c.idsubsls = some k ∧ c.status = "DIUBAH" ∧
      c.batas_berubah = false ∧ c.kdsubsls_changed = false ∧
      c.luas_lama = 100 ∧ c.luas_baru = 105 ∧ c.selisih_luas = -5 := by
  have hb : (detect_geometry_changes eqTol o n).1 = false :=
    detect_fst_false heq (by rw [hg]; norm_num [ratAbs, sub_self])
  have hcond : (detect_geometry_changes eqTol o n).1 = true ∨
      o.kdsubsls ≠ n.kdsubsls ∨ (1 : ℚ)/1000 < ratAbs (o.luas - n.luas) := by
    refine Or.inr (Or.inr ?_)
    rw [holuas, hnluas]
    norm_num [ratAbs]
  have hcl := (classifyPair_spec eqTol k o n).1 hcond
  refine ⟨_, mem_changesBoth.mpr ⟨k, o, n, hk, ho, hn, hcl⟩,
    rfl, rfl, hb, ?_, holuas, hnluas, ?_⟩
  · show (o.kdsubsls != n.kdsubsls) = false
    rw [hokd, hnkd]
    simp
  · show o.luas - n.luas = -5
    rw [holuas, hnluas]
    norm_num

/-- C3 witness: the amended theorem applied to the concrete scenario. -/
theorem C3_scenario2_amended_witness :
    ∃ c ∈ changesBoth c3eqTol c3old c3new ["A"],
      c.idsubsls = some "A" ∧ c.status = "DIUBAH" ∧
      c.batas_berubah = false ∧ c.kdsubsls_changed = false ∧
      c.luas_lama = 100 ∧ c.luas_baru = 105 ∧ c.selisih_luas = -5 :=
  C3_scenario2_amended c3eqTol c3old c3new ["A"] "A" c3oldRec c3newRec
    (by decide) (by decide) (by decide) rfl (by decide) rfl rfl rfl rfl

/-- C3 counterexample to the claim as stated: on the concrete scenario
the single emitted record has `batas_berubah = false`, not `true` — the
boundary flag is computed from the geometric comparison only, and the
5.0 delta of the `luas` attribute does not feed it. -/
theorem C3_cex :
    changesBoth c3eqTol c3old c3new ["A"] = [c3record] ∧
    c3record.status = "DIUBAH" ∧ c3record.batas_berubah = false := by
  refine ⟨?_, rfl, rfl⟩
  have hdet : (detect_geometry_changes c3eqTol c3oldRec c3newRec).1 = false := by
    unfold detect_geometry_changes c3eqTol c3oldRec c3newRec c3geom
    norm_num [ratAbs, sub_self]
  have hcond : (detect_geometry_changes c3eqTol c3oldRec c3newRec).1 = true ∨
      c3oldRec.kdsubsls ≠ c3newRec.kdsubsls ∨
      (1 : ℚ)/1000 < ratAbs (c3oldRec.luas - c3newRec.luas) := by
    refine Or.inr (Or.inr ?_)
    unfold c3oldRec c3newRec
    norm_num [ratAbs]
  have hcl := (classifyPair_spec c3eqTol "A" c3oldRec c3newRec).1 hcond
  unfold changesBoth
  rw [List.filterMap_cons]
  have hb : (lookupIdx c3old "A").bind (fun o =>
      (lookupIdx c3new "A").bind (fun n =>
        classifyPair c3eqTol "A" o n)) = some c3record := by
    rw [show lookupIdx c3old "A" = some c3oldRec from rfl,
      show lookupIdx c3new "A" = some c3newRec from rfl]
    simp only [Option.some_bind]
    rw [hcl, Option.some.injEq]
    unfold c3record
    simp only [ChangeRecord.mk.injEq, hdet, bne_self_eq_false]
    unfold c3oldRec c3newRec
    norm_num
  rw [hb]
  rw [List.filterMap_nil]

/-- C4 (amended): when either geometry fails the validity check,
`detect_geometry_changes` raises no error and returns `(False, 0.0)` —
the pair is treated as UNCHANGED by the geometry pass, not as changed. -/
theorem C4_invalid_geometry_amended (eqTol : Geom → Geom → Bool)
    (o n : FRec) (h : o.geom.valid = false ∨ n.geom.valid = false) :
    detect_geometry_changes eqTol o n = (false, 0) := by
  unfold detect_geometry_changes
  rw [if_pos]
  rcases h with h | h <;> simp [h]

/-- C4 witness: the amended theorem applied to a concrete pair whose
old geometry is invalid. -/
theorem C4_invalid_geometry_amended_witness :
    c4o.geom.valid = false ∧
    detect_geometry_changes c4eqTol c4o c4n = (false, 0) :=
  ⟨rfl, C4_invalid_geometry_amended c4eqTol c4o c4n (Or.inl rfl)⟩

/-- C4 counterexample to the claim as stated: a pair with an invalid old
geometry that the engine reports as NOT equal is nevertheless not
flagged as changed — the geometry-change flag comes back `false`, the
opposite of the claimed conservative flagging. -/
theorem C4_cex :
    c4o.geom.valid = false ∧
    c4eqTol c4o.geom c4n.geom = false ∧
    (detect_geometry_changes c4eqTol c4o c4n).1 = false := by
  decide

/-- C10: every DITAMBAHKAN or DIHAPUS record of the identity-based pass
has `batas_berubah = false` and `kdsubsls_changed = false` (also when
the codes differ as null versus non-null), and every DIHAPUS record
carries a null geometry, so it can never appear among the features the
GeoPackage export writes. -/
theorem C10_added_removed_invariants (eqTol : Geom → Geom → Bool)
    (old new : List (String × FRec)) (ksBoth ksNew ksOld : List String)
    (c : ChangeRecord)
    (hc : c ∈ changes_by_id eqTol old new ksBoth ksNew ksOld) :
    ((c.status = "DITAMBAHKAN" ∨ c.status = "DIHAPUS") →
      c.batas_berubah = false ∧ c.kdsubsls_changed = false)
    ∧ (c.status = "DIHAPUS" →
        c.geom = none ∧ ∀ report : List ChangeRecord,
          c ∉ gpkgFeatures report) := by
  unfold changes_by_id at hc
  rcases List.mem_append.mp hc with hc | hc
  rcases List.mem_append.mp hc with hc | hc
  · rcases mem_changesBoth.mp hc with ⟨j, o', n', _, _, _, hcl⟩
    have hst := (classifyPair_fields hcl).2.1
    constructor
    · intro hor
      rcases hor with h | h <;> rw [hst] at h <;> exact absurd h (by decide)
    · intro h
      rw [hst] at h
      exact absurd h (by decide)
  · rcases mem_filterMap_mk.mp hc with ⟨j, r, _, _, rfl⟩
    refine ⟨fun _ => ⟨rfl, rfl⟩, fun h => ?_⟩
    rw [show (addedRecord j r).status = "DITAMBAHKAN" from rfl] at h
    exact absurd h (by decide)
  · rcases mem_filterMap_mk.mp hc with ⟨j, r, _, _, rfl⟩
    refine ⟨fun _ => ⟨rfl, rfl⟩, fun _ => ⟨rfl, fun report hmem => ?_⟩⟩
    have := (List.mem_filter.mp hmem).2
    cases this

/-- C10 witness: the theorem applied to a concrete run with one added
and one removed key; the removed record has both flags false, a null
geometry and is absent from the GeoPackage features of its own report. -/
theorem C10_added_removed_invariants_witness :
    c10removed ∈ changes_by_id c10eqTol c10old c10new [] ["E"] ["D"] ∧
    c10removed.batas_berubah = false ∧
    c10removed.kdsubsls_changed = false ∧
    c10removed.geom = none := by
  have h := C10_added_removed_invariants c10eqTol c10old c10new []
    ["E"] ["D"] c10removed (by decide)
  exact ⟨by decide, (h.1 (Or.inr rfl)).1, (h.1 (Or.inr rfl)).2,
    (h.2 rfl).1⟩

/-- One spatial change record per joined polygon carrying a geometry. -/
theorem length_spatialChangesOf (L : JoinedLayer) :
    (spatialChangesOf L).length
      = L.feats.countP (fun f => f.geom.isSome) := by
  unfold spatialChangesOf
  induction L.feats with
  | nil => rfl
  | cons a t ih =>
    rw [List.filterMap_cons, List.countP_cons]
    cases ha : a.geom with
    | none => simpa [ha] using ih
    | some g => simp [ha, ih, Nat.add_comm]

/-- C5 (amended): every polygon of the joined difference layer that
carries a geometry yields exactly one spatial change record, with status
PERUBAHAN_SPASIAL, `batas_berubah = true`, `luas_lama = 0`, and both
`luas_baru` and the spatial-area field equal to the polygon area; the
placeholder key (prefix `SPASIAL_` plus the internal feature id) is
synthesized only when the `idsubsls` FIELD is absent from the joined
layer's schema — under the join's actual output convention (field
present, unmatched rows NULL) a polygon lacking a join match keeps the
field's null value as its key, not the placeholder. -/
theorem C5_spatial_records_amended (L : JoinedLayer) (f : JoinedFeat)
    (g : Geom) (hf : f ∈ L.feats) (hg : f.geom = some g) :
    spatialRecordOf L.hasIdField f g ∈ spatialChangesOf L
    ∧ (spatialRecordOf L.hasIdField f g).status = "PERUBAHAN_SPASIAL"
    ∧ (spatialRecordOf L.hasIdField f g).batas_berubah = true
    ∧ (spatialRecordOf L.hasIdField f g).luas_lama = 0
    ∧ (spatialRecordOf L.hasIdField f g).luas_baru = g.area
    ∧ (spatialRecordOf L.hasIdField f g).selisih_luas = g.area
    ∧ (spatialRecordOf L.hasIdField f g).area = some g.area
    ∧ (L.hasIdField = false →
        (spatialRecordOf L.hasIdField f g).idsubsls
          = some ("SPASIAL_" ++ toString f.fid))
    ∧ (L.hasIdField = true →
        (spatialRecordOf L.hasIdField f g).idsubsls = f.idVal)
    ∧ (joinOutputWf L → f.matched = false →
        (spatialRecordOf L.hasIdField f g).idsubsls = none)
    ∧ (spatialChangesOf L).length
        = L.feats.countP (fun f2 => f2.geom.isSome) := by
  refine ⟨?_, rfl, rfl, rfl, rfl, rfl, rfl, ?_, ?_, ?_,
    length_spatialChangesOf L⟩
  · unfold spatialChangesOf
    rw [List.mem_filterMap]
    exact ⟨f, hf, by rw [hg, Option.map_some']⟩
  · intro h
    unfold spatialRecordOf
    rw [h]
    rfl
  · intro h
    unfold spatialRecordOf
    rw [h]
    rfl
  · intro hwf hm
    unfold spatialRecordOf
    rw [hwf.1]
    simpa using hwf.2 f hf hm

/-- C5 witness: the amended theorem applied to a concrete joined layer
with one unmatched polygon; the record exists, has the spatial status,
and carries the null key. -/
theorem C5_spatial_records_amended_witness :
    c5record ∈ spatialChangesOf c5layer ∧
    c5record.status = "PERUBAHAN_SPASIAL" ∧
    c5record.idsubsls = none := by
  have h := C5_spatial_records_amended c5layer c5feat ⟨5, true, 4⟩
    (by decide) rfl
  exact ⟨h.1, h.2.1, h.2.2.2.2.2.2.2.2.2.1 ⟨rfl, by decide⟩ rfl⟩

/-- C5 counterexample to the claim as stated: a polygon lacking a join
match, in a joined layer whose schema has the `idsubsls` field (which is
what `DISCARD_NONMATCHING: False` produces), gets the NULL field value
as its key — not the synthesized placeholder `SPASIAL_<ordinal>`. -/
theorem C5_cex :
    c5feat.matched = false ∧
    spatialChangesOf c5layer = [c5record] ∧
    c5record.idsubsls ≠ some ("SPASIAL_" ++ toString c5feat.fid) := by
  exact ⟨rfl, rfl, by decide⟩

/-- C6 (amended): if the `processing` import fails, or any of the
overlay computations inside `enhanced_spatial_analysis` (symmetrical
difference or either auxiliary difference) raises, the detection run
completes, the spatial change list is empty, and the report contains
exactly the identity-based records; failures of the reprojection call or
of the spatial join call are NOT caught and abort the run. -/
theorem C6_spatial_failure_amended (e : SpatialEngine) (crsDiffer : Bool)
    (byId prior : List ChangeRecord) :
    (e.importOk = false →
      run_detection_tail byId e crsDiffer [] = .ok ([], byId))
    ∧ (e.importOk = true →
        (crsDiffer = true → e.reprojectResult = .ok ()) →
        (e.symDiffResult = .error () ∨ e.diffNewResult = .error () ∨
          e.diffOldResult = .error ()) →
        run_detection_tail byId e crsDiffer prior = .ok ([], byId)) := by
  constructor
  · intro h
    unfold run_detection_tail run_spatial_analysis
    rw [h]
    rfl
  · intro himp hrep herr
    have hesa : enhanced_spatial_analysis e = none := by
      unfold enhanced_spatial_analysis
      rcases herr with h | h | h
      · rw [h]
      · cases hs : e.symDiffResult with
        | error u => rfl
        | ok d => rw [h]
      · cases hs : e.symDiffResult with
        | error u => rfl
        | ok d =>
          cases hn : e.diffNewResult with
          | error u => rfl
          | ok v => rw [h]
    have hpre : (if crsDiffer then e.reprojectResult else Except.ok ())
        = Except.ok () := by
      cases crsDiffer with
      | false => rfl
      | true => simpa using hrep rfl
    have hrsa : run_spatial_analysis e crsDiffer prior = .ok [] := by
      unfold run_spatial_analysis
      rw [himp, hpre, hesa]
      rfl
    unfold run_detection_tail
    rw [hrsa]
    rfl

/-- C6 witness: the amended theorem applied to a concrete engine trace
whose symmetrical difference raises; the run completes with an empty
spatial list and the identity-based records as the whole report. -/
theorem C6_spatial_failure_amended_witness :
    run_detection_tail c6byId c6symFail false [] = .ok ([], c6byId) :=
  (C6_spatial_failure_amended c6symFail false c6byId []).2 rfl
    (fun hcrs => absurd hcrs (by decide)) (Or.inl rfl)

/-- C6 counterexample to the claim as stated: when the spatial JOIN
raises (import fine, reprojection not needed, overlay fine), the
exception is not caught anywhere, so the detection run aborts instead of
completing with the identity-based report. -/
theorem C6_cex :
    run_detection_tail c6byId c6joinFail false [] = .error () := rfl

/-- Membership in the first-occurrence enumeration of the group keys. -/
theorem mem_firstOccurrences (l : List Int) (g : Int) :
    g ∈ firstOccurrences l ↔ g ∈ l := by
  unfold firstOccurrences
  suffices h : ∀ acc : List Int,
      g ∈ l.foldl
        (fun acc g2 => if acc.contains g2 then acc else acc ++ [g2]) acc
      ↔ g ∈ acc ∨ g ∈ l by
    simpa using h []
  induction l with
  | nil => intro acc; simp
  | cons a t ih =>
    intro acc
    rw [List.foldl_cons]
    by_cases hc : acc.contains a = true
    · rw [if_pos hc]
      rw [ih]
      have ha : a ∈ acc := by simpa using hc
      constructor
      · rintro (h | h)
        · exact Or.inl h
        · exact Or.inr (List.mem_cons_of_mem a h)
      · rintro (h | h)
        · exact Or.inl h
        · rcases List.mem_cons.mp h with rfl | h2
          · exact Or.inl ha
          · exact Or.inr h2
    · rw [if_neg hc]
      rw [ih]
      constructor
      · rintro (h | h)
        · rcases List.mem_append.mp h with h2 | h2
          · exact Or.inl h2
          · rcases List.mem_cons.mp h2 with rfl | h3
            · exact Or.inr (List.mem_cons_self g t)
            · cases h3
        · exact Or.inr (List.mem_cons_of_mem a h)
      · rintro (h | h)
        · exact Or.inl (List.mem_append.mpr (Or.inl h))
        · rcases List.mem_cons.mp h with rfl | h2
          · exact Or.inl (List.mem_append.mpr (Or.inr (List.mem_cons_self g [])))
          · exact Or.inr h2

/-- C8: with both the grouping-key and secondary-code fields present in
the new schema, a primary key is flagged iff some new-dataset record
with that key belongs to a grouping-key group with more than one member
in which at least one member has a null or blank secondary code; every
member of such a group is flagged; and when either field is absent, the
validator is skipped and the flag list is empty. -/
theorem C8_duplicate_validator (feats : List Feat) :
    (∀ k : String, k ∈ duplicate_ids_new true true feats ↔
      ∃ f ∈ feats, f.idsubsls = k ∧ (gidGroup feats f.gid).length > 1 ∧
        ∃ f2 ∈ gidGroup feats f.gid, isNullOrBlank f2.kdsubsls = true)
    ∧ (∀ f ∈ feats, (gidGroup feats f.gid).length > 1 →
        (∃ f2 ∈ gidGroup feats f.gid, isNullOrBlank f2.kdsubsls = true) →
        f.idsubsls ∈ duplicate_ids_new true true feats)
    ∧ (∀ hasGid hasKd : Bool, hasGid = false ∨ hasKd = false →
        duplicate_ids_new hasGid hasKd feats = []) := by
  have hbody : duplicate_ids_new true true feats
      = (firstOccurrences (feats.map (fun f => f.gid))).flatMap (fun g =>
          if (gidGroup feats g).length > 1
              && (gidGroup feats g).any (fun f => isNullOrBlank f.kdsubsls)
          then (gidGroup feats g).map (fun f => f.idsubsls)
          else []) := rfl
  have hiff : ∀ k : String, k ∈ duplicate_ids_new true true feats ↔
      ∃ f ∈ feats, f.idsubsls = k ∧ (gidGroup feats f.gid).length > 1 ∧
        ∃ f2 ∈ gidGroup feats f.gid, isNullOrBlank f2.kdsubsls = true := by
    intro k
    rw [hbody, List.mem_flatMap]
    constructor
    · rintro ⟨g, _, hk⟩
      by_cases hflag : ((gidGroup feats g).length > 1
          && (gidGroup feats g).any (fun f => isNullOrBlank f.kdsubsls))
          = true
      · rw [if_pos hflag] at hk
        rcases List.mem_map.mp hk with ⟨f, hfg, hfk⟩
        have hfmem : f ∈ feats ∧ (f.gid == g) = true :=
          List.mem_filter.mp hfg
        have hgid : f.gid = g := by simpa using hfmem.2
        rw [Bool.and_eq_true] at hflag
        obtain ⟨hlen, hany⟩ := hflag
        rcases List.any_eq_true.mp hany with ⟨f2, hf2, hnull⟩
        refine ⟨f, hfmem.1, hfk, ?_, f2, ?_, hnull⟩
        · rw [hgid]
          simpa using hlen
        · rw [hgid]
          exact hf2
      · rw [if_neg hflag] at hk
        cases hk
    · rintro ⟨f, hf, hfk, hlen, f2, hf2, hnull⟩
      refine ⟨f.gid, ?_, ?_⟩
      · rw [mem_firstOccurrences]
        exact List.mem_map.mpr ⟨f, hf, rfl⟩
      · rw [if_pos]
        · exact List.mem_map.mpr ⟨f, List.mem_filter.mpr ⟨hf, by simp⟩, hfk⟩
        · rw [Bool.and_eq_true]
          exact ⟨by simpa using hlen,
            List.any_eq_true.mpr ⟨f2, hf2, hnull⟩⟩
  refine ⟨hiff, ?_, ?_⟩
  · intro f hf hlen hnull
    exact (hiff f.idsubsls).mpr ⟨f, hf, rfl, hlen, hnull⟩
  · intro hasGid hasKd h
    rcases h with h | h
    · subst h
      rfl
    · subst h
      cases hasGid <;> rfl

/-- C8 witness: the theorem applied to two concrete records sharing
grouping key 7, one with a null secondary code: both primary keys are
flagged; with the grouping-key field absent the flag list is empty. -/
theorem C8_duplicate_validator_witness :
    "K1" ∈ duplicate_ids_new true true c8feats ∧
    "K2" ∈ duplicate_ids_new true true c8feats ∧
    duplicate_ids_new false true c8feats = [] := by
  have h := C8_duplicate_validator c8feats
  exact ⟨(h.1 "K1").mpr ⟨c8feat1, by decide, rfl, by decide,
      c8feat1, by decide, rfl⟩,
    (h.1 "K2").mpr ⟨c8feat2, by decide, rfl, by decide,
      c8feat1, by decide, rfl⟩,
    h.2.2 false true (Or.inl rfl)⟩

/-- Records agreeing on everything but `gid` produce the same index
entry. -/
theorem toFRec_eq_of_agree {hasKd : Bool} {f1 f2 : Feat}
    (h : AgreeExceptGid f1 f2) : toFRec hasKd f1 = toFRec hasKd f2 := by
  obtain ⟨_, hl, hk, hg⟩ := h
  unfold toFRec
  rw [hl, hk, hg]

/-- Feature lists agreeing on everything but `gid` build the same
index. -/
theorem buildIndex_eq_of_agree {hasKd : Bool} {l1 l2 : List Feat}
    (h : List.Forall₂ AgreeExceptGid l1 l2) :
    buildIndex hasKd l1 = buildIndex hasKd l2 := by
  unfold buildIndex
  suffices hs : ∀ m : List (String × FRec),
      List.foldl (fun m f => insertLWW m f.idsubsls (toFRec hasKd f)) m l1
        = List.foldl (fun m f => insertLWW m f.idsubsls (toFRec hasKd f)) m l2 by
    exact hs []
  induction h with
  | nil => intro m; rfl
  | cons hfg _ ih =>
    intro m
    rw [List.foldl_cons, List.foldl_cons, hfg.1, toFRec_eq_of_agree hfg]
    exact ih _

/-- C9: the duplicate flag set never alters classification.  Two runs on
raw inputs that agree on everything the indices read (so the old and new
feature indices coincide) and differ only in the grouping-key values
that feed the validator produce the same identity-based change list and
the same merged report; and for ANY two duplicate flag lists, the CSV
row of any change record differs at most in the duplicate-annotation
cell. -/
theorem C9_flags_never_alter_classification (eqTol : Geom → Geom → Bool)
    (hasGid hasKdNew hasKdOld : Bool) (oldFeats newFeats1 newFeats2 : List Feat)
    (ksBoth ksNew ksOld : List String) (spatial : List ChangeRecord)
    (h : List.Forall₂ AgreeExceptGid newFeats1 newFeats2) :
    ((fullRun eqTol hasGid hasKdNew hasKdOld oldFeats newFeats1
        ksBoth ksNew ksOld spatial).byId
      = (fullRun eqTol hasGid hasKdNew hasKdOld oldFeats newFeats2
          ksBoth ksNew ksOld spatial).byId)
    ∧ ((fullRun eqTol hasGid hasKdNew hasKdOld oldFeats newFeats1
          ksBoth ksNew ksOld spatial).report
        = (fullRun eqTol hasGid hasKdNew hasKdOld oldFeats newFeats2
            ksBoth ksNew ksOld spatial).report)
    ∧ (∀ (d1 d2 : List String) (item : ChangeRecord),
        rowSansDup (exportRow d1 item) = rowSansDup (exportRow d2 item)) := by
  have hbi := @buildIndex_eq_of_agree hasKdNew newFeats1 newFeats2 h
  refine ⟨?_, ?_, ?_⟩
  · unfold fullRun
    rw [hbi]
  · unfold fullRun
    rw [hbi]
  · intro d1 d2 item
    rfl

/-- C9 witness: the theorem applied to two concrete new-feature lists
differing only in `gid`; also the export rows for a concrete record
under two different flag lists agree outside the annotation cell. -/
theorem C9_flags_never_alter_classification_witness :
    ((fullRun c9eqTol true true true [c9oldFeat] [c9newFeat1]
        [] ["N1"] ["O1"] []).byId
      = (fullRun c9eqTol true true true [c9oldFeat] [c9newFeat2]
          [] ["N1"] ["O1"] []).byId)
    ∧ ((fullRun c9eqTol true true true [c9oldFeat] [c9newFeat1]
          [] ["N1"] ["O1"] []).report
        = (fullRun c9eqTol true true true [c9oldFeat] [c9newFeat2]
            [] ["N1"] ["O1"] []).report)
    ∧ rowSansDup (exportRow ["N1"] c9item)
        = rowSansDup (exportRow [] c9item) := by
  have h := C9_flags_never_alter_classification c9eqTol true true true
    [c9oldFeat] [c9newFeat1] [c9newFeat2] [] ["N1"] ["O1"] []
    (List.Forall₂.cons ⟨rfl, rfl, rfl, rfl⟩ List.Forall₂.nil)
  exact ⟨h.1, h.2.1, h.2.2 ["N1"] [] c9item⟩

end SLS
